import Mathlib

/-!
A shallow embedding of the encryption migration controller
(`migration_controller.go` of the encryption controllers package) together
with proofs about its behaviour.

The Go controller is embedded as follows:

* `schema.GroupResource` becomes `GroupResource`; its `String()` method
  (from apimachinery: `resource` for the core group, `resource.group`
  otherwise) becomes `GroupResource.grString`.
* errors are modelled by their message strings; `none` stands for a `nil`
  Go error.
* time instants are seconds as `Nat`; `time.Since(when)` becomes
  `now - when` (Go's negative durations and truncated subtraction agree on
  the only comparison made, `> migrationRetryDuration`).
* the secret-annotation map is an association list.  A JSON annotation
  value is represented by the inductive `AnnVal`: `AnnVal.grList l` stands
  for the string `json.Marshal` produces for the migrated-group-resources
  struct with resource list `l` (so `json.Unmarshal` inverts it), and
  `AnnVal.str s` stands for any other string, on which `json.Unmarshal`
  of that struct fails.  `time.Now().Format(time.RFC3339)` is passed in as
  the opaque string `nowStr`.
* the collaborators the controller calls
  (`statemachine.GetEncryptionConfigAndState`, `secrets.ListKeySecrets`,
  `encryptionconfig.ToEncryptionState`/`FromEncryptionState`, the
  `Migrator`, the secret client and `resourceapply.ApplySecret`) live in
  other packages; their results for the one sync tick under study are
  supplied as oracle fields of `SyncInputs`.  `retry.RetryOnConflict` is
  modelled by a single execution of its body whose oracle results stand
  for the final outcome after conflict retries.
* every externally visible action of a tick (migrator calls, queue
  re-adds, secret reads and writes) is recorded in an `Event` trace.
-/

namespace Migration

/-- Errors are modelled by their message strings; none stands for nil. -/
abbrev Err := String

/-- Go constant migrationRetryDuration = 5 * time.Minute, in seconds. -/
def migrationRetryDuration : Nat := 5 * 60

/-- schema.GroupResource: a (group, resource) pair naming one stored kind. -/
structure GroupResource where
  group : String
  resource : String
deriving DecidableEq, Repr

/-- The String() method of schema.GroupResource (apimachinery): the bare
resource for the core (empty) group, and "resource.group" otherwise.  This
is the key the Go code sorts by. -/
def GroupResource.grString (gr : GroupResource) : String :=
  if gr.group = "" then gr.resource else gr.resource ++ "." ++ gr.group

/-- Lexicographic sort key of grString as a list of code points.  Go
compares strings byte-lexicographically; on UTF-8 that order coincides
with code-point lexicographic order. -/
def GroupResource.grKey (gr : GroupResource) : List Nat :=
  gr.grString.toList.map Char.toNat

/-- Lexicographic comparison key of an arbitrary string, as a list of
code points (the order Go's byte-wise string comparison induces on
UTF-8). -/
def strKey (s : String) : List Nat := s.toList.map Char.toNat

/-- groupToHumanReadable from the source: extracts the group of gr,
converting an empty group to "core". -/
def groupToHumanReadable (gr : GroupResource) : String :=
  let group := gr.group
  if group.length = 0 then "core" else group

/-- grsToHumanReadable from the source: renders each GR as
"group/resource" with the human-readable group. -/
def grsToHumanReadable (grs : List GroupResource) : List String :=
  grs.map fun gr => groupToHumanReadable gr ++ "/" ++ gr.resource

/-- Go fmt's %v rendering of a []string: elements separated by single
spaces inside square brackets. -/
def fmtStringList (l : List String) : String :=
  "[" ++ String.intercalate " " l ++ "]"

/-- An annotation value: grList l is the JSON string that marshalling the
migrated-group-resources struct with list l produces (unmarshalling
inverts it); str s is any other string (unmarshalling that struct from it
fails). -/
inductive AnnVal where
  | str (s : String)
  | grList (l : List GroupResource)
deriving DecidableEq, Repr

/-- json.Unmarshal of a string into the migrated-group-resources struct:
succeeds exactly on marshalled values. -/
def unmarshalMigratedGRs : AnnVal → Option (List GroupResource)
  | .grList l => some l
  | .str _ => none

/-- Annotation key secrets.EncryptionSecretMigratedResources. -/
def EncryptionSecretMigratedResources : String :=
  "encryption.apiserver.operator.openshift.io/migrated-resources"

/-- Annotation key secrets.EncryptionSecretMigratedTimestamp. -/
def EncryptionSecretMigratedTimestamp : String :=
  "encryption.apiserver.operator.openshift.io/migrated-timestamp"

/-- The annotation map of a secret, as an association list. -/
abbrev AnnMap := List (String × AnnVal)

/-- Map update: replace the first binding of k, or append one. -/
def setKey (m : AnnMap) (k : String) (v : AnnVal) : AnnMap :=
  match m with
  | [] => [(k, v)]
  | (k', v') :: rest =>
    if k' = k then (k, v) :: rest else (k', v') :: setKey rest k v

/-- Lookup in a possibly nil annotation map (Go maps may be nil). -/
def lookupAnn (m : Option AnnMap) (k : String) : Option AnnVal :=
  match m with
  | none => none
  | some l => l.lookup k

/-- A corev1.Secret restricted to the fields the controller touches.
The Go Namespace field is called ns here (namespace is a Lean keyword). -/
structure Secret where
  ns : String
  name : String
  annotations : Option AnnMap
deriving DecidableEq, Repr

/-- The parse step at the top of setResourceMigrated: read the
migrated-resources annotation, unmarshal it, and on a missing annotation
or a parse error start from the empty list. -/
def parsedMigrated (s : Secret) : List GroupResource :=
  match lookupAnn s.annotations EncryptionSecretMigratedResources with
  | some v =>
    match unmarshalMigratedGRs v with
    | some l => l
    | none => []
  | none => []

/-- setResourceMigrated from the source.  Returns (changed, updated
secret).  nowStr is the RFC3339 rendering of time.Now().  The Go version
can also return a marshal error, but json.Marshal of the
migrated-group-resources struct never fails, so the embedding is total. -/
def setResourceMigrated (gr : GroupResource) (nowStr : String) (s : Secret) :
    Bool × Secret :=
  let migratedGRs := parsedMigrated s
  let alreadyMigrated := gr ∈ migratedGRs
  if (lookupAnn s.annotations EncryptionSecretMigratedTimestamp).isSome ∧ alreadyMigrated then
    (false, s)
  else
    let ann0 := s.annotations.getD []
    let ann1 := setKey ann0 EncryptionSecretMigratedTimestamp (.str nowStr)
    let ann2 :=
      if ¬ alreadyMigrated then
        setKey ann1 EncryptionSecretMigratedResources (.grList (migratedGRs ++ [gr]))
      else ann1
    (true, { s with annotations := some ann2 })

/-- Modelled from the spec: state.KeyState is not under src.  The fields
the driver reads are the name of the secret carrying the key
(WriteKey.Key.Name) and the set of GRs the key is annotated as having
migrated (consulted by state.MigratedFor). -/
structure KeyState where
  keyName : String
  migrated : List GroupResource
deriving DecidableEq, Repr

/-- Modelled from the spec: state.MigratedFor reports whether every given
GR is recorded as migrated in the key's annotations. -/
def migratedFor (grs : List GroupResource) (ks : KeyState) : Bool :=
  grs.all fun gr => gr ∈ ks.migrated

/-- Modelled from the spec: state.GroupResourceState exposes HasWriteKey
and WriteKey; an absent write key is modelled by none. -/
structure GRActualKeys where
  writeKey : Option KeyState
deriving DecidableEq, Repr

/-- HasWriteKey of the current per-GR key state. -/
def GRActualKeys.hasWriteKey (k : GRActualKeys) : Bool :=
  k.writeKey.isSome

/-- One resource entry of an encryption config; only deep equality of the
entries matters to the driver, so the provider list is kept abstract as
strings. -/
structure ResourceConfig where
  resources : List String
  providers : List String
deriving DecidableEq, Repr

/-- apiserverconfigv1.EncryptionConfiguration restricted to the Resources
field the driver compares. -/
structure EncryptionConfig where
  resources : List ResourceConfig
deriving DecidableEq, Repr

/-- The four results of Migrator.EnsureMigration(gr, writeKeyName). -/
structure EnsureMigrationResult where
  finished : Bool
  result : Option Err
  lastAt : Nat
  err : Option Err
deriving DecidableEq, Repr

/-- Externally visible actions of one sync tick. -/
inductive Event where
  | ensureMigration (gr : GroupResource) (writeKeyName : String)
  | pruneMigration (gr : GroupResource)
  | addAfter (seconds : Nat)
  | getSecret (ns name : String)
  | applySecret (ns name : String)
deriving DecidableEq, Repr

/-- All inputs of one sync tick: the state the controller reads and the
oracle results of every collaborator call it can make.  ensure1 answers
the first EnsureMigration call for a GR in this tick and ensure2 the
re-invocation after a successful prune. -/
structure SyncInputs where
  ready : Bool
  preconditionErr : Option Err
  getConfigAndStateErr : Option Err
  currentEncryptionConfig : Option EncryptionConfig
  isTransitionalReason : String
  listSecretsErr : Option Err
  currentState : List (GroupResource × GRActualKeys)
  desiredEncryptedConfig : EncryptionConfig
  ensure1 : GroupResource → String → EnsureMigrationResult
  ensure2 : GroupResource → String → EnsureMigrationResult
  prune : GroupResource → Option Err
  fromKeyState : KeyState → Except Err Secret
  getSecret : String → String → Except Err Secret
  applyErr : Secret → Option Err
  updateStatusErr : Option Err
  now : Nat
  nowStr : String

/-- The outcome of the per-GR loop body for one GR. -/
structure StepOut where
  migrating : List GroupResource
  errs : List (Option Err)
  events : List Event
deriving DecidableEq, Repr

/-- errors.NewAggregate: drop nil errors; nil when none remain. -/
def newAggregate (errs : List (Option Err)) : Option Err :=
  match errs.filterMap id with
  | [] => none
  | es => some (String.intercalate ", " es)

/-- The tail of the per-GR loop body after the (possibly re-invoked)
EnsureMigration call: the err, failed, unfinished and annotation cases of
the source, in order. -/
def handleEnsureResult (inp : SyncInputs) (gr : GroupResource) (wk : KeyState)
    (r : EnsureMigrationResult) (evs : List Event) : StepOut :=
  if r.err ≠ none then
    ⟨[], [r.err], evs⟩
  else if r.finished = true ∧ r.result ≠ none then
    ⟨[], [r.result], evs⟩
  else if r.finished = false then
    ⟨[gr], [], evs⟩
  else
    match inp.fromKeyState wk with
    | .error _ =>
      -- the source appends result (nil on this path), not the conversion error
      ⟨[], [r.result], evs⟩
    | .ok oldWriteKey =>
      let evs := evs ++ [.getSecret oldWriteKey.ns oldWriteKey.name]
      match inp.getSecret oldWriteKey.ns oldWriteKey.name with
      | .error e =>
        ⟨[], [some ("failed to get key secret " ++ oldWriteKey.ns ++ "/" ++
          oldWriteKey.name ++ ": " ++ e)], evs⟩
      | .ok s =>
        let res := setResourceMigrated gr inp.nowStr s
        if res.1 = true then
          let evs := evs ++ [.applySecret res.2.ns res.2.name]
          match inp.applyErr res.2 with
          | some e => ⟨[], [some e], evs⟩
          | none => ⟨[], [], evs⟩
        else ⟨[], [], evs⟩

/-- The per-GR loop body of migrateKeysIfNeededAndRevisionStable: skip
when there is no write key or the GR is already recorded as migrated,
invoke EnsureMigration, apply the retry-after-failure policy, and hand the
final result to handleEnsureResult. -/
def processGR (inp : SyncInputs) (gr : GroupResource) (grActualKeys : GRActualKeys) :
    StepOut :=
  match grActualKeys.writeKey with
  | none => ⟨[], [], []⟩
  | some wk =>
    if migratedFor [gr] wk then ⟨[], [], []⟩
    else
      let r1 := inp.ensure1 gr wk.keyName
      let evs : List Event := [.ensureMigration gr wk.keyName]
      if r1.err = none ∧ r1.finished = true ∧ r1.result ≠ none ∧
          inp.now - r1.lastAt > migrationRetryDuration then
        let evs := evs ++ [.pruneMigration gr]
        match inp.prune gr with
        | some pe => ⟨[], [some pe], evs⟩
        | none =>
          let r2 := inp.ensure2 gr wk.keyName
          handleEnsureResult inp gr wk r2 (evs ++ [.ensureMigration gr wk.keyName])
      else
        handleEnsureResult inp gr wk r1 evs

/-- The order the Go code sorts the per-GR loop by: ascending
GroupResource String() form. -/
def stateLe (p q : GroupResource × GRActualKeys) : Prop :=
  p.1.grKey ≤ q.1.grKey

instance : DecidableRel stateLe :=
  fun p q => inferInstanceAs (Decidable (p.1.grKey ≤ q.1.grKey))

instance : IsTotal (GroupResource × GRActualKeys) stateLe :=
  ⟨fun p q => le_total p.1.grKey q.1.grKey⟩

instance : IsTrans (GroupResource × GRActualKeys) stateLe :=
  ⟨fun _ _ _ h h' => le_trans h h'⟩

/-- The sort of the current state by GroupResource String(), standing for
the sort.Slice call of the source (the source sorts the key list and then
indexes the map; sorting the entries is the same loop). -/
def sortGRState (l : List (GroupResource × GRActualKeys)) :
    List (GroupResource × GRActualKeys) :=
  List.insertionSort stateLe l

/-- The results of one migrateKeysIfNeededAndRevisionStable call. -/
structure DriverOut where
  migrating : List GroupResource
  err : Option Err
  events : List Event
deriving DecidableEq, Repr

/-- migrateKeysIfNeededAndRevisionStable from the source: the transitional
gate, the config-equality gate with its prune sweep, and the sorted
per-GR migration loop. -/
def migrateKeysIfNeededAndRevisionStable (inp : SyncInputs) : DriverOut :=
  match inp.getConfigAndStateErr with
  | some e => ⟨[], some e, []⟩
  | none =>
    match inp.currentEncryptionConfig with
    | none => ⟨[], none, [.addAfter 120]⟩
    | some currentConfig =>
      if inp.isTransitionalReason ≠ "" then ⟨[], none, [.addAfter 120]⟩
      else
        match inp.listSecretsErr with
        | some e => ⟨[], some e, []⟩
        | none =>
          if currentConfig.resources ≠ inp.desiredEncryptedConfig.resources then
            ⟨[], none,
              inp.currentState.map (fun p => Event.pruneMigration p.1) ++ [.addAfter 120]⟩
          else
            let steps := (sortGRState inp.currentState).map fun p => processGR inp p.1 p.2
            ⟨(steps.map StepOut.migrating).flatten,
             newAggregate ((steps.map StepOut.errs).flatten),
             (steps.map StepOut.events).flatten⟩

/-- An operator condition restricted to the fields the controller sets. -/
structure Cond where
  status : Bool
  reason : String
  message : String
deriving DecidableEq, Repr

/-- The initial value of both conditions: ConditionFalse with no reason. -/
def falseCond : Cond := ⟨false, "", ""⟩

/-- The observable outcome of one sync call: the returned error, the
condition pair written by the deferred status update (none when the update
was skipped), and the driver's migrating list and event trace. -/
structure SyncOut where
  ret : Option Err
  statusUpdate : Option (Cond × Cond)
  migrating : List GroupResource
  events : List Event
deriving DecidableEq, Repr

/-- sync from the source: the precondition gate (which suppresses the
deferred status update only when the gate itself errored), the driver
call, and condition computation.  The deferred UpdateStatus error replaces
the returned error when non-nil. -/
def sync (inp : SyncInputs) : SyncOut :=
  if inp.preconditionErr ≠ none ∨ inp.ready = false then
    if inp.preconditionErr ≠ none then
      { ret := inp.preconditionErr, statusUpdate := none, migrating := [], events := [] }
    else
      { ret := inp.updateStatusErr, statusUpdate := some (falseCond, falseCond),
        migrating := [], events := [] }
  else
    let d := migrateKeysIfNeededAndRevisionStable inp
    let degraded : Cond :=
      match d.err with
      | some e => ⟨true, "Error", e⟩
      | none => falseCond
    let progressing : Cond :=
      if d.migrating ≠ [] then
        ⟨true, "Migrating",
          "migrating resources to a new write key: " ++
            fmtStringList (grsToHumanReadable d.migrating)⟩
      else falseCond
    { ret := if inp.updateStatusErr ≠ none then inp.updateStatusErr else d.err,
      statusUpdate := some (degraded, progressing),
      migrating := d.migrating, events := d.events }

/-! Concrete instances used to instantiate the theorems below. -/

/-- An EnsureMigration result reporting a finished, successful migration. -/
def ensureOk : EnsureMigrationResult := ⟨true, none, 0, none⟩

/-- The GR of the concrete instances: secrets in the core group. -/
def grSecrets : GroupResource := ⟨"", "secrets"⟩

/-- The write-key state of the concrete instances. -/
def wkOne : KeyState := ⟨"encryption-key-1", []⟩

/-- A tick input on which every gate passes and the single GR migrates
successfully on the first EnsureMigration call. -/
def baseInputs : SyncInputs where
  ready := true
  preconditionErr := none
  getConfigAndStateErr := none
  currentEncryptionConfig := some ⟨[⟨["secrets"], ["aescbc-key"]⟩]⟩
  isTransitionalReason := ""
  listSecretsErr := none
  currentState := [(grSecrets, ⟨some wkOne⟩)]
  desiredEncryptedConfig := ⟨[⟨["secrets"], ["aescbc-key"]⟩]⟩
  ensure1 := fun _ _ => ensureOk
  ensure2 := fun _ _ => ensureOk
  prune := fun _ => none
  fromKeyState := fun ks => .ok ⟨"openshift-config-managed", ks.keyName, some []⟩
  getSecret := fun ns name => .ok ⟨ns, name, none⟩
  applyErr := fun _ => none
  updateStatusErr := none
  now := 1000
  nowStr := "2024-01-01T00:00:00Z"

/-- baseInputs with a desired config differing from the current one, and a
migrator whose prune calls fail. -/
def divergenceInputs : SyncInputs :=
  { baseInputs with
    desiredEncryptedConfig := ⟨[⟨["secrets", "configmaps"], ["aescbc-key"]⟩]⟩,
    prune := fun _ => some "prune failed" }

/-- baseInputs with an old failed migration (lastAt 1000 seconds before
now, beyond the 5-minute retry window) and failing prune calls. -/
def pruneFailInputs : SyncInputs :=
  { baseInputs with
    ensure1 := fun _ _ => ⟨true, some "migration failed", 0, none⟩,
    prune := fun _ => some "prune boom" }

/-- baseInputs with an old failed migration and a prune that succeeds, so
the retry-after-failure re-invocation runs and succeeds. -/
def retryOkInputs : SyncInputs :=
  { baseInputs with
    ensure1 := fun _ _ => ⟨true, some "old failure", 0, none⟩ }

/-- baseInputs with a migration that failed 100 seconds ago, inside the
5-minute retry window. -/
def recentFailInputs : SyncInputs :=
  { baseInputs with
    ensure1 := fun _ _ => ⟨true, some "recent failure", 900, none⟩ }

/-- baseInputs with the precondition check reporting false (no error). -/
def notReadyInputs : SyncInputs :=
  { baseInputs with ready := false }

/-- baseInputs mid-rollout: no deployed encryption config yet. -/
def transitionalInputs : SyncInputs :=
  { baseInputs with currentEncryptionConfig := none }

/-- baseInputs with a failing precondition check. -/
def preErrInputs : SyncInputs :=
  { baseInputs with preconditionErr := some "precondition check failed" }

/-- baseInputs with two unfinished GRs whose sort keys invert their
human-readable rendering: (z, a) renders as z/a but sorts by a.z, and
(a, b) renders as a/b but sorts by b.a. -/
def unsortedInputs : SyncInputs :=
  { baseInputs with
    currentState := [(⟨"a", "b"⟩, ⟨some ⟨"key-a", []⟩⟩), (⟨"z", "a"⟩, ⟨some ⟨"key-z", []⟩⟩)],
    ensure1 := fun _ _ => ⟨false, none, 0, none⟩ }

/-- baseInputs with a key-state-to-secret conversion that fails. -/
def convFailInputs : SyncInputs :=
  { baseInputs with fromKeyState := fun _ => .error "conversion failed" }

/-- A key secret with no annotations yet. -/
def freshSecret : Secret := ⟨"openshift-config-managed", "encryption-key-1", none⟩

/-- A key secret already stamped for grSecrets. -/
def stampedSecret : Secret :=
  ⟨"openshift-config-managed", "encryption-key-1",
    some [(EncryptionSecretMigratedTimestamp, .str "2023-12-31T00:00:00Z"),
          (EncryptionSecretMigratedResources, .grList [grSecrets])]⟩

/-- A key secret whose migrated-resources annotation does not parse. -/
def corruptSecret : Secret :=
  ⟨"openshift-config-managed", "encryption-key-1",
    some [(EncryptionSecretMigratedResources, .str "not json")]⟩

/-! Helper lemmas about the annotation map. -/

theorem lookup_setKey_self (m : AnnMap) (k : String) (v : AnnVal) :
    (setKey m k v).lookup k = some v := by
  induction m with
  | nil => simp [setKey, List.lookup]
  | cons p rest ih =>
    obtain ⟨k', v'⟩ := p
    by_cases h : k' = k
    · subst h
      simp [setKey, List.lookup]
    · have hb : (k == k') = false := beq_eq_false_iff_ne.mpr fun hk => h hk.symm
      simp [setKey, if_neg h, List.lookup, hb, ih]

theorem lookup_setKey_ne (m : AnnMap) (k k' : String) (v : AnnVal) (h : k' ≠ k) :
    (setKey m k v).lookup k' = m.lookup k' := by
  have hb : (k' == k) = false := beq_eq_false_iff_ne.mpr h
  induction m with
  | nil => simp [setKey, List.lookup, hb]
  | cons p rest ih =>
    obtain ⟨k₀, v₀⟩ := p
    by_cases hk : k₀ = k
    · subst hk
      simp [setKey, List.lookup, hb]
    · by_cases hk' : k' = k₀
      · subst hk'
        simp [setKey, if_neg hk, List.lookup]
      · have hb' : (k' == k₀) = false := beq_eq_false_iff_ne.mpr hk'
        simp [setKey, if_neg hk, List.lookup, hb', ih]

theorem lookupAnn_getD (s : Secret) (k : String) :
    (s.annotations.getD []).lookup k = lookupAnn s.annotations k := by
  cases s.annotations with
  | none => simp [lookupAnn, List.lookup]
  | some l => simp [lookupAnn]

theorem mr_ne_ts : EncryptionSecretMigratedResources ≠ EncryptionSecretMigratedTimestamp := by
  decide

theorem setResourceMigrated_unchanged (gr : GroupResource) (nowStr : String) (s : Secret)
    (h : (lookupAnn s.annotations EncryptionSecretMigratedTimestamp).isSome = true ∧
      gr ∈ parsedMigrated s) :
    setResourceMigrated gr nowStr s = (false, s) := by
  simp only [setResourceMigrated]
  rw [if_pos h]

theorem setResourceMigrated_changed (gr : GroupResource) (nowStr : String) (s : Secret)
    (h : ¬((lookupAnn s.annotations EncryptionSecretMigratedTimestamp).isSome = true ∧
      gr ∈ parsedMigrated s)) :
    setResourceMigrated gr nowStr s =
      (true, { s with annotations := some (
        if ¬ gr ∈ parsedMigrated s then
          setKey (setKey (s.annotations.getD []) EncryptionSecretMigratedTimestamp (.str nowStr))
            EncryptionSecretMigratedResources (.grList (parsedMigrated s ++ [gr]))
        else
          setKey (s.annotations.getD []) EncryptionSecretMigratedTimestamp (.str nowStr)) }) := by
  simp only [setResourceMigrated]
  rw [if_neg h]

theorem parsedMigrated_congr (s s' : Secret)
    (h : lookupAnn s'.annotations EncryptionSecretMigratedResources =
      lookupAnn s.annotations EncryptionSecretMigratedResources) :
    parsedMigrated s' = parsedMigrated s := by
  unfold parsedMigrated
  rw [h]

theorem parsedMigrated_of_lookup (s' : Secret) (l : List GroupResource)
    (h : lookupAnn s'.annotations EncryptionSecretMigratedResources = some (.grList l)) :
    parsedMigrated s' = l := by
  unfold parsedMigrated
  rw [h]
  rfl

/-! Branch characterizations of the driver and of sync. -/

theorem driver_divergence (inp : SyncInputs) (cfg : EncryptionConfig)
    (hgcs : inp.getConfigAndStateErr = none)
    (hcfg : inp.currentEncryptionConfig = some cfg)
    (htrans : inp.isTransitionalReason = "")
    (hlist : inp.listSecretsErr = none)
    (hne : cfg.resources ≠ inp.desiredEncryptedConfig.resources) :
    migrateKeysIfNeededAndRevisionStable inp =
      ⟨[], none,
        inp.currentState.map (fun p => Event.pruneMigration p.1) ++ [.addAfter 120]⟩ := by
  simp [migrateKeysIfNeededAndRevisionStable, hgcs, hcfg, htrans, hlist, hne]

theorem driver_transitional (inp : SyncInputs)
    (hgcs : inp.getConfigAndStateErr = none)
    (h : inp.currentEncryptionConfig = none ∨ inp.isTransitionalReason ≠ "") :
    migrateKeysIfNeededAndRevisionStable inp = ⟨[], none, [.addAfter 120]⟩ := by
  rcases h with h | h
  · simp [migrateKeysIfNeededAndRevisionStable, hgcs, h]
  · cases hc : inp.currentEncryptionConfig with
    | none => simp [migrateKeysIfNeededAndRevisionStable, hgcs, hc]
    | some cfg => simp [migrateKeysIfNeededAndRevisionStable, hgcs, hc, h]

theorem driver_loop (inp : SyncInputs) (cfg : EncryptionConfig)
    (hgcs : inp.getConfigAndStateErr = none)
    (hcfg : inp.currentEncryptionConfig = some cfg)
    (htrans : inp.isTransitionalReason = "")
    (hlist : inp.listSecretsErr = none)
    (heq : cfg.resources = inp.desiredEncryptedConfig.resources) :
    migrateKeysIfNeededAndRevisionStable inp =
      ⟨(((sortGRState inp.currentState).map fun p => processGR inp p.1 p.2).map
          StepOut.migrating).flatten,
       newAggregate ((((sortGRState inp.currentState).map fun p =>
          processGR inp p.1 p.2).map StepOut.errs).flatten),
       (((sortGRState inp.currentState).map fun p => processGR inp p.1 p.2).map
          StepOut.events).flatten⟩ := by
  simp [migrateKeysIfNeededAndRevisionStable, hgcs, hcfg, htrans, hlist, heq]

theorem sync_run (inp : SyncInputs) (hready : inp.ready = true)
    (hpre : inp.preconditionErr = none) :
    sync inp =
      { ret := if inp.updateStatusErr ≠ none then inp.updateStatusErr
          else (migrateKeysIfNeededAndRevisionStable inp).err,
        statusUpdate := some
          (match (migrateKeysIfNeededAndRevisionStable inp).err with
            | some e => ⟨true, "Error", e⟩
            | none => falseCond,
           if (migrateKeysIfNeededAndRevisionStable inp).migrating ≠ [] then
             ⟨true, "Migrating", "migrating resources to a new write key: " ++
               fmtStringList
                 (grsToHumanReadable (migrateKeysIfNeededAndRevisionStable inp).migrating)⟩
           else falseCond),
        migrating := (migrateKeysIfNeededAndRevisionStable inp).migrating,
        events := (migrateKeysIfNeededAndRevisionStable inp).events } := by
  simp [sync, hready, hpre]

/-! The claim theorems. -/

/-- C1: in a tick whose current deployed config resources differ from the
desired config resources, EnsureMigration is never invoked, PruneMigration
runs for every GR of the current state, the item is re-queued after 2
minutes (120 seconds), and sync returns no error and no migrating
resources. -/
theorem c1_config_divergence (inp : SyncInputs) (cfg : EncryptionConfig)
    (hready : inp.ready = true) (hpre : inp.preconditionErr = none)
    (hgcs : inp.getConfigAndStateErr = none)
    (hcfg : inp.currentEncryptionConfig = some cfg)
    (htrans : inp.isTransitionalReason = "")
    (hlist : inp.listSecretsErr = none)
    (hne : cfg.resources ≠ inp.desiredEncryptedConfig.resources)
    (hupd : inp.updateStatusErr = none) :
    (∀ g k, Event.ensureMigration g k ∉ (migrateKeysIfNeededAndRevisionStable inp).events) ∧
    (∀ p ∈ inp.currentState,
      Event.pruneMigration p.1 ∈ (migrateKeysIfNeededAndRevisionStable inp).events) ∧
    Event.addAfter 120 ∈ (migrateKeysIfNeededAndRevisionStable inp).events ∧
    (migrateKeysIfNeededAndRevisionStable inp).migrating = [] ∧
    (sync inp).ret = none ∧ (sync inp).migrating = [] := by
  have hd := driver_divergence inp cfg hgcs hcfg htrans hlist hne
  have hs := sync_run inp hready hpre
  refine ⟨?_, ?_, ?_, ?_, ?_, ?_⟩
  · intro g k
    rw [hd]
    simp
  · intro p hp
    rw [hd]
    simp only [List.mem_append, List.mem_map]
    exact Or.inl ⟨p, hp, rfl⟩
  · rw [hd]
    simp
  · rw [hd]
  · rw [hs]
    simp [hupd, hd]
  · rw [hs]
    simp [hd]

/-- Witness for C1 on divergenceInputs, whose prune oracle even fails:
no EnsureMigration event, a PruneMigration event for the one GR of the
current state, and a nil sync error. -/
theorem c1_witness :
    (∀ g k,
      Event.ensureMigration g k ∉ (migrateKeysIfNeededAndRevisionStable divergenceInputs).events) ∧
    Event.pruneMigration grSecrets ∈
      (migrateKeysIfNeededAndRevisionStable divergenceInputs).events ∧
    Event.addAfter 120 ∈ (migrateKeysIfNeededAndRevisionStable divergenceInputs).events ∧
    (sync divergenceInputs).ret = none := by
  have h := c1_config_divergence divergenceInputs ⟨[⟨["secrets"], ["aescbc-key"]⟩]⟩
    rfl rfl rfl rfl rfl rfl (by decide) rfl
  exact ⟨h.1, h.2.1 (grSecrets, ⟨some wkOne⟩) (by decide), h.2.2.1, h.2.2.2.2.1⟩

/-- C8: in a tick where the current encryption config is nil or the
transitional reason is non-empty, the driver only re-queues after 2
minutes (120 seconds), reports no migrating resources and no error, never
touches the migrator, and sync returns nil leaving both conditions False. -/
theorem c8_transitional_gate (inp : SyncInputs)
    (hready : inp.ready = true) (hpre : inp.preconditionErr = none)
    (hgcs : inp.getConfigAndStateErr = none)
    (h : inp.currentEncryptionConfig = none ∨ inp.isTransitionalReason ≠ "")
    (hupd : inp.updateStatusErr = none) :
    migrateKeysIfNeededAndRevisionStable inp = ⟨[], none, [.addAfter 120]⟩ ∧
    sync inp = ⟨none, some (falseCond, falseCond), [], [.addAfter 120]⟩ := by
  have hd := driver_transitional inp hgcs h
  have hs := sync_run inp hready hpre
  refine ⟨hd, ?_⟩
  rw [hs]
  simp [hd, hupd, falseCond]

/-- Witness for C8 on transitionalInputs (no deployed config yet). -/
theorem c8_witness :
    migrateKeysIfNeededAndRevisionStable transitionalInputs = ⟨[], none, [.addAfter 120]⟩ ∧
    sync transitionalInputs = ⟨none, some (falseCond, falseCond), [], [.addAfter 120]⟩ :=
  c8_transitional_gate transitionalInputs rfl rfl rfl (Or.inl rfl) rfl

/-! Branch characterizations of the per-GR loop body. -/

theorem migratedFor_single_false (gr : GroupResource) (wk : KeyState)
    (h : gr ∉ wk.migrated) : migratedFor [gr] wk = false := by
  simp [migratedFor, h]

theorem migratedFor_single_true (gr : GroupResource) (wk : KeyState)
    (h : gr ∈ wk.migrated) : migratedFor [gr] wk = true := by
  simp [migratedFor, h]

theorem processGR_no_retry (inp : SyncInputs) (gr : GroupResource) (keys : GRActualKeys)
    (wk : KeyState) (hwk : keys.writeKey = some wk) (hmig : gr ∉ wk.migrated)
    (hno : ¬(inp.ensure1 gr wk.keyName).err = none ∨
      ¬(inp.ensure1 gr wk.keyName).finished = true ∨
      ¬(inp.ensure1 gr wk.keyName).result ≠ none ∨
      ¬inp.now - (inp.ensure1 gr wk.keyName).lastAt > migrationRetryDuration) :
    processGR inp gr keys =
      handleEnsureResult inp gr wk (inp.ensure1 gr wk.keyName)
        [.ensureMigration gr wk.keyName] := by
  have hm := migratedFor_single_false gr wk hmig
  simp only [processGR, hwk, hm, Bool.false_eq_true, if_false]
  rw [if_neg]
  intro hc
  rcases hno with h | h | h | h
  · exact h hc.1
  · exact h hc.2.1
  · exact h hc.2.2.1
  · exact h hc.2.2.2

theorem processGR_retry_prune_fail (inp : SyncInputs) (gr : GroupResource)
    (keys : GRActualKeys) (wk : KeyState) (r : Err) (t : Nat) (pe : Err)
    (hwk : keys.writeKey = some wk) (hmig : gr ∉ wk.migrated)
    (h1 : inp.ensure1 gr wk.keyName = ⟨true, some r, t, none⟩)
    (hold : inp.now - t > migrationRetryDuration)
    (hp : inp.prune gr = some pe) :
    processGR inp gr keys =
      ⟨[], [some pe], [.ensureMigration gr wk.keyName, .pruneMigration gr]⟩ := by
  have hm := migratedFor_single_false gr wk hmig
  have hcond : (inp.ensure1 gr wk.keyName).err = none ∧
      (inp.ensure1 gr wk.keyName).finished = true ∧
      (inp.ensure1 gr wk.keyName).result ≠ none ∧
      inp.now - (inp.ensure1 gr wk.keyName).lastAt > migrationRetryDuration := by
    rw [h1]
    exact ⟨rfl, rfl, by simp, hold⟩
  simp only [processGR, hwk, hm, Bool.false_eq_true, if_false]
  rw [if_pos hcond]
  simp [hp]

theorem processGR_retry_prune_ok (inp : SyncInputs) (gr : GroupResource)
    (keys : GRActualKeys) (wk : KeyState) (r : Err) (t : Nat)
    (hwk : keys.writeKey = some wk) (hmig : gr ∉ wk.migrated)
    (h1 : inp.ensure1 gr wk.keyName = ⟨true, some r, t, none⟩)
    (hold : inp.now - t > migrationRetryDuration)
    (hp : inp.prune gr = none) :
    processGR inp gr keys =
      handleEnsureResult inp gr wk (inp.ensure2 gr wk.keyName)
        [.ensureMigration gr wk.keyName, .pruneMigration gr,
          .ensureMigration gr wk.keyName] := by
  have hm := migratedFor_single_false gr wk hmig
  have hcond : (inp.ensure1 gr wk.keyName).err = none ∧
      (inp.ensure1 gr wk.keyName).finished = true ∧
      (inp.ensure1 gr wk.keyName).result ≠ none ∧
      inp.now - (inp.ensure1 gr wk.keyName).lastAt > migrationRetryDuration := by
    rw [h1]
    exact ⟨rfl, rfl, by simp, hold⟩
  simp only [processGR, hwk, hm, Bool.false_eq_true, if_false]
  rw [if_pos hcond]
  simp [hp]

/-! More claim theorems. -/

/-- C5: a GR with no write key, or whose write key is already annotated as
migrated for it, is skipped entirely: the loop body performs no migrator
call, no secret read or write, records no error and no migrating GR, so a
finished-and-stamped (GR, key) pair makes subsequent ticks no-ops. -/
theorem c5_skip_migrated_or_no_write_key (inp : SyncInputs) (gr : GroupResource)
    (keys : GRActualKeys)
    (h : keys.writeKey = none ∨ ∃ wk, keys.writeKey = some wk ∧ gr ∈ wk.migrated) :
    processGR inp gr keys = ⟨[], [], []⟩ := by
  rcases h with h | ⟨wk, hwk, hmig⟩
  · simp [processGR, h]
  · simp [processGR, hwk, migratedFor_single_true gr wk hmig]

/-- Witness for C5: the loop body is inert both for a key-less GR and for
a GR already recorded on its write key. -/
theorem c5_witness :
    processGR baseInputs grSecrets ⟨none⟩ = ⟨[], [], []⟩ ∧
    processGR baseInputs grSecrets ⟨some ⟨"encryption-key-1", [grSecrets]⟩⟩ = ⟨[], [], []⟩ :=
  ⟨c5_skip_migrated_or_no_write_key baseInputs grSecrets ⟨none⟩ (Or.inl rfl),
   c5_skip_migrated_or_no_write_key baseInputs grSecrets _
     (Or.inr ⟨⟨"encryption-key-1", [grSecrets]⟩, rfl, by decide⟩)⟩

/-- C10: when a migration finished successfully but converting the write
key state to a secret fails, the loop body appends the nil lastResult
instead of the conversion error, skips the annotation step, and the tick
aggregates no error and leaves Degraded False. -/
theorem c10_conversion_error_swallowed (inp : SyncInputs) (gr : GroupResource)
    (keys : GRActualKeys) (wk : KeyState) (e : Err) (t : Nat)
    (hwk : keys.writeKey = some wk) (hmig : gr ∉ wk.migrated)
    (h1 : inp.ensure1 gr wk.keyName = ⟨true, none, t, none⟩)
    (hconv : inp.fromKeyState wk = .error e)
    (hready : inp.ready = true) (hpre : inp.preconditionErr = none)
    (hgcs : inp.getConfigAndStateErr = none)
    (hcfg : ∃ cfg, inp.currentEncryptionConfig = some cfg ∧
      cfg.resources = inp.desiredEncryptedConfig.resources)
    (htrans : inp.isTransitionalReason = "")
    (hlist : inp.listSecretsErr = none)
    (hstate : inp.currentState = [(gr, keys)])
    (hupd : inp.updateStatusErr = none) :
    processGR inp gr keys = ⟨[], [none], [.ensureMigration gr wk.keyName]⟩ ∧
    (migrateKeysIfNeededAndRevisionStable inp).err = none ∧
    sync inp = ⟨none, some (falseCond, falseCond), [], [.ensureMigration gr wk.keyName]⟩ := by
  have hstep : processGR inp gr keys = ⟨[], [none], [.ensureMigration gr wk.keyName]⟩ := by
    rw [processGR_no_retry inp gr keys wk hwk hmig (by rw [h1]; simp)]
    rw [h1]
    simp [handleEnsureResult, hconv]
  obtain ⟨cfg, hcfg', heq⟩ := hcfg
  have hd := driver_loop inp cfg hgcs hcfg' htrans hlist heq
  rw [hstate] at hd
  have hd' : migrateKeysIfNeededAndRevisionStable inp =
      ⟨[], none, [.ensureMigration gr wk.keyName]⟩ := by
    rw [hd]
    simp [sortGRState, List.insertionSort, hstep, newAggregate]
  refine ⟨hstep, by rw [hd'], ?_⟩
  rw [sync_run inp hready hpre]
  simp [hd', hupd, falseCond]

/-- Witness for C10 on convFailInputs: the conversion failure leaves the
aggregated error nil and both conditions False. -/
theorem c10_witness :
    processGR convFailInputs grSecrets ⟨some wkOne⟩ =
      ⟨[], [none], [.ensureMigration grSecrets "encryption-key-1"]⟩ ∧
    (migrateKeysIfNeededAndRevisionStable convFailInputs).err = none ∧
    sync convFailInputs =
      ⟨none, some (falseCond, falseCond), [], [.ensureMigration grSecrets "encryption-key-1"]⟩ :=
  c10_conversion_error_swallowed convFailInputs grSecrets ⟨some wkOne⟩ wkOne
    "conversion failed" 0 rfl (by decide) rfl rfl rfl rfl rfl
    ⟨⟨[⟨["secrets"], ["aescbc-key"]⟩]⟩, rfl, rfl⟩ rfl rfl rfl rfl

/-- C2 counterexample: with an over-5-minutes-old failure and a failing
prune, EnsureMigration is invoked exactly once in the tick, refuting the
claim that the driver always re-invokes it after calling PruneMigration. -/
theorem c2_counterexample :
    (migrateKeysIfNeededAndRevisionStable pruneFailInputs).events =
      [.ensureMigration grSecrets "encryption-key-1", .pruneMigration grSecrets] ∧
    (migrateKeysIfNeededAndRevisionStable pruneFailInputs).events.count
      (.ensureMigration grSecrets "encryption-key-1") = 1 := by
  decide

/-- C2 (amended): for a GR whose EnsureMigration returns finished with a
non-nil lastResult and no transport error: past the 5-minute window the
driver calls PruneMigration and, when the prune succeeds, re-invokes
EnsureMigration with the same arguments (a failed prune instead records
the prune error for that GR and moves on); within the window it surfaces
lastResult as that GR's error without pruning. -/
theorem c2_retry_after_failure (inp : SyncInputs) (gr : GroupResource)
    (keys : GRActualKeys) (wk : KeyState) (r : Err) (t : Nat)
    (hwk : keys.writeKey = some wk) (hmig : gr ∉ wk.migrated)
    (h1 : inp.ensure1 gr wk.keyName = ⟨true, some r, t, none⟩) :
    (inp.now - t > migrationRetryDuration →
      (inp.prune gr = none →
        processGR inp gr keys =
          handleEnsureResult inp gr wk (inp.ensure2 gr wk.keyName)
            [.ensureMigration gr wk.keyName, .pruneMigration gr,
              .ensureMigration gr wk.keyName]) ∧
      (∀ pe, inp.prune gr = some pe →
        processGR inp gr keys =
          ⟨[], [some pe], [.ensureMigration gr wk.keyName, .pruneMigration gr]⟩)) ∧
    (inp.now - t ≤ migrationRetryDuration →
      processGR inp gr keys = ⟨[], [some r], [.ensureMigration gr wk.keyName]⟩) := by
  refine ⟨fun hold => ⟨fun hp => ?_, fun pe hp => ?_⟩, fun hrecent => ?_⟩
  · exact processGR_retry_prune_ok inp gr keys wk r t hwk hmig h1 hold hp
  · exact processGR_retry_prune_fail inp gr keys wk r t pe hwk hmig h1 hold hp
  · rw [processGR_no_retry inp gr keys wk hwk hmig (by rw [h1]; simp; omega)]
    rw [h1]
    simp [handleEnsureResult]

/-- Witness for C2: the re-invocation happens on retryOkInputs (old
failure, prune succeeds) and the recent failure on recentFailInputs is
surfaced without pruning. -/
theorem c2_witness :
    (processGR retryOkInputs grSecrets ⟨some wkOne⟩ =
      handleEnsureResult retryOkInputs grSecrets wkOne
        (retryOkInputs.ensure2 grSecrets "encryption-key-1")
        [.ensureMigration grSecrets "encryption-key-1", .pruneMigration grSecrets,
          .ensureMigration grSecrets "encryption-key-1"]) ∧
    (processGR recentFailInputs grSecrets ⟨some wkOne⟩ =
      ⟨[], [some "recent failure"], [.ensureMigration grSecrets "encryption-key-1"]⟩) :=
  ⟨((c2_retry_after_failure retryOkInputs grSecrets ⟨some wkOne⟩ wkOne "old failure" 0
      rfl (by decide) rfl).1 (by decide)).1 rfl,
   (c2_retry_after_failure recentFailInputs grSecrets ⟨some wkOne⟩ wkOne "recent failure" 900
      rfl (by decide) rfl).2 (by decide)⟩

/-- C6 counterexample: a PruneMigration error at the retry-after-failure
call site is aggregated into the driver error (and hence surfaced),
refuting the claim that prune errors are only ever logged. -/
theorem c6_counterexample :
    pruneFailInputs.prune grSecrets = some "prune boom" ∧
    (migrateKeysIfNeededAndRevisionStable pruneFailInputs).err = some "prune boom" ∧
    (sync pruneFailInputs).ret = some "prune boom" := by
  decide

/-- C6 (amended): prune errors at the config-divergence sweep are ignored
(the driver still returns no error), but a prune error at the
retry-after-failure site is appended to the aggregated per-GR errors. -/
theorem c6_prune_error_sites :
    (∀ (inp : SyncInputs) (cfg : EncryptionConfig),
      inp.getConfigAndStateErr = none → inp.currentEncryptionConfig = some cfg →
      inp.isTransitionalReason = "" → inp.listSecretsErr = none →
      cfg.resources ≠ inp.desiredEncryptedConfig.resources →
      (migrateKeysIfNeededAndRevisionStable inp).err = none ∧
      (migrateKeysIfNeededAndRevisionStable inp).migrating = []) ∧
    (∀ (inp : SyncInputs) (gr : GroupResource) (keys : GRActualKeys) (wk : KeyState)
        (r : Err) (t : Nat) (pe : Err),
      keys.writeKey = some wk → gr ∉ wk.migrated →
      inp.ensure1 gr wk.keyName = ⟨true, some r, t, none⟩ →
      inp.now - t > migrationRetryDuration → inp.prune gr = some pe →
      processGR inp gr keys =
        ⟨[], [some pe], [.ensureMigration gr wk.keyName, .pruneMigration gr]⟩) := by
  constructor
  · intro inp cfg hgcs hcfg htrans hlist hne
    rw [driver_divergence inp cfg hgcs hcfg htrans hlist hne]
    exact ⟨rfl, rfl⟩
  · intro inp gr keys wk r t pe hwk hmig h1 hold hp
    exact processGR_retry_prune_fail inp gr keys wk r t pe hwk hmig h1 hold hp

/-- Witness for C6 (amended): divergenceInputs has a failing prune yet a
nil driver error, and pruneFailInputs records the prune error. -/
theorem c6_witness :
    (migrateKeysIfNeededAndRevisionStable divergenceInputs).err = none ∧
    processGR pruneFailInputs grSecrets ⟨some wkOne⟩ =
      ⟨[], [some "prune boom"],
        [.ensureMigration grSecrets "encryption-key-1", .pruneMigration grSecrets]⟩ :=
  ⟨(c6_prune_error_sites.1 divergenceInputs ⟨[⟨["secrets"], ["aescbc-key"]⟩]⟩
      rfl rfl rfl rfl (by decide)).1,
   c6_prune_error_sites.2 pruneFailInputs grSecrets ⟨some wkOne⟩ wkOne "migration failed" 0
     "prune boom" rfl (by decide) rfl (by decide) rfl⟩

/-- C7 counterexample: when the precondition check reports false without
an error, sync still performs a status update writing both conditions (as
False), refuting the claim that no condition update is emitted. -/
theorem c7_counterexample :
    notReadyInputs.ready = false ∧ notReadyInputs.preconditionErr = none ∧
    (sync notReadyInputs).statusUpdate = some (falseCond, falseCond) := by
  decide

/-- C7 (amended): when the precondition check errors, no conditions are
written and the error is surfaced; when it merely reports false, both
conditions are written as False and sync returns nil (or the status-update
error when that write fails). -/
theorem c7_precondition_paths (inp : SyncInputs) :
    (∀ e, inp.preconditionErr = some e → sync inp = ⟨some e, none, [], []⟩) ∧
    (inp.preconditionErr = none → inp.ready = false →
      sync inp = ⟨inp.updateStatusErr, some (falseCond, falseCond), [], []⟩) := by
  constructor
  · intro e he
    simp [sync, he]
  · intro hpre hready
    simp [sync, hpre, hready]

/-- Witness for C7 (amended) at a failing and at a false-reporting
precondition check. -/
theorem c7_witness :
    sync preErrInputs = ⟨some "precondition check failed", none, [], []⟩ ∧
    sync notReadyInputs = ⟨none, some (falseCond, falseCond), [], []⟩ :=
  ⟨(c7_precondition_paths preErrInputs).1 "precondition check failed" rfl,
   (c7_precondition_paths notReadyInputs).2 rfl rfl⟩

/-- C3: setResourceMigrated parses the migrated-resources annotation as
JSON (treating absence or a parse error as the empty set), returns
unchanged exactly when the GR is already in the parsed set and the
migrated-timestamp annotation is present, and otherwise stamps the
timestamp annotation with the RFC3339-rendered current time and, when the
GR was not already present, appends it to the set and re-serializes the
set to JSON (an already-present GR leaves the set annotation untouched). -/
theorem c3_setResourceMigrated_spec (gr : GroupResource) (nowStr : String) (s : Secret) :
    ((setResourceMigrated gr nowStr s).1 = false ↔
      gr ∈ parsedMigrated s ∧
        (lookupAnn s.annotations EncryptionSecretMigratedTimestamp).isSome = true) ∧
    ((setResourceMigrated gr nowStr s).1 = false →
      (setResourceMigrated gr nowStr s).2 = s) ∧
    ((setResourceMigrated gr nowStr s).1 = true →
      lookupAnn (setResourceMigrated gr nowStr s).2.annotations
          EncryptionSecretMigratedTimestamp = some (.str nowStr) ∧
      (gr ∉ parsedMigrated s →
        lookupAnn (setResourceMigrated gr nowStr s).2.annotations
            EncryptionSecretMigratedResources =
          some (.grList (parsedMigrated s ++ [gr]))) ∧
      (gr ∈ parsedMigrated s →
        lookupAnn (setResourceMigrated gr nowStr s).2.annotations
            EncryptionSecretMigratedResources =
          lookupAnn s.annotations EncryptionSecretMigratedResources)) := by
  by_cases h : (lookupAnn s.annotations EncryptionSecretMigratedTimestamp).isSome = true ∧
      gr ∈ parsedMigrated s
  · rw [setResourceMigrated_unchanged gr nowStr s h]
    refine ⟨by simpa using ⟨h.2, h.1⟩, fun _ => rfl, by simp⟩
  · rw [setResourceMigrated_changed gr nowStr s h]
    refine ⟨by simpa using fun hm hts => h ⟨hts, hm⟩, by simp, fun _ => ?_⟩
    by_cases hm : gr ∈ parsedMigrated s
    · simp only [hm, not_true_eq_false, if_false]
      refine ⟨?_, fun hnm => hnm.elim, fun _ => ?_⟩
      · show (setKey _ _ _).lookup _ = _
        exact lookup_setKey_self _ _ _
      · show (setKey _ _ _).lookup _ = _
        rw [lookup_setKey_ne _ _ _ _ mr_ne_ts]
        exact lookupAnn_getD s _
    · simp only [hm, not_false_eq_true, if_true]
      refine ⟨?_, fun _ => ?_, fun hmem => hmem.elim⟩
      · show (setKey _ _ _).lookup _ = _
        rw [lookup_setKey_ne _ _ _ _ (Ne.symm mr_ne_ts)]
        exact lookup_setKey_self _ _ _
      · show (setKey _ _ _).lookup _ = _
        exact lookup_setKey_self _ _ _

/-- Witness for C3 at a fresh secret: the update reports a change and
stamps the timestamp annotation with the supplied time. -/
theorem c3_witness :
    (setResourceMigrated grSecrets "2024-01-01T00:00:00Z" freshSecret).1 = true ∧
    lookupAnn (setResourceMigrated grSecrets "2024-01-01T00:00:00Z" freshSecret).2.annotations
        EncryptionSecretMigratedTimestamp = some (.str "2024-01-01T00:00:00Z") :=
  ⟨by decide,
    ((c3_setResourceMigrated_spec grSecrets "2024-01-01T00:00:00Z" freshSecret).2.2
      (by decide)).1⟩

/-- C4: a GR present in the parsed migrated-resources set of a key secret
is still present after any application of setResourceMigrated: the
recorded set is monotonically non-decreasing. -/
theorem c4_migrated_resources_monotone (gr : GroupResource) (nowStr : String)
    (s : Secret) (g : GroupResource) (h : g ∈ parsedMigrated s) :
    g ∈ parsedMigrated (setResourceMigrated gr nowStr s).2 := by
  by_cases hc : (lookupAnn s.annotations EncryptionSecretMigratedTimestamp).isSome = true ∧
      gr ∈ parsedMigrated s
  · rw [setResourceMigrated_unchanged gr nowStr s hc]
    exact h
  · rw [setResourceMigrated_changed gr nowStr s hc]
    by_cases hm : gr ∈ parsedMigrated s
    · simp only [hm, not_true_eq_false, if_false]
      rw [parsedMigrated_congr s _ ?_]
      · exact h
      · show (setKey _ _ _).lookup _ = _
        rw [lookup_setKey_ne _ _ _ _ mr_ne_ts]
        exact lookupAnn_getD s _
    · simp only [hm, not_false_eq_true, if_true]
      rw [parsedMigrated_of_lookup _ (parsedMigrated s ++ [gr]) ?_]
      · exact List.mem_append_left _ h
      · show (setKey _ _ _).lookup _ = _
        exact lookup_setKey_self _ _ _

/-- Witness for C4: the GR already stamped on stampedSecret survives an
update for a different GR. -/
theorem c4_witness :
    grSecrets ∈
      parsedMigrated (setResourceMigrated ⟨"apps", "deployments"⟩ "2024-01-01T00:00:00Z"
        stampedSecret).2 :=
  c4_migrated_resources_monotone ⟨"apps", "deployments"⟩ "2024-01-01T00:00:00Z"
    stampedSecret grSecrets (by decide)

/-! Sortedness of the migrating list. -/

theorem handleEnsureResult_migrating (inp : SyncInputs) (gr : GroupResource) (wk : KeyState)
    (r : EnsureMigrationResult) (evs : List Event) :
    (handleEnsureResult inp gr wk r evs).migrating = [] ∨
    (handleEnsureResult inp gr wk r evs).migrating = [gr] := by
  unfold handleEnsureResult
  split_ifs with h1 h2 h3
  · exact Or.inl rfl
  · exact Or.inl rfl
  · exact Or.inr rfl
  · cases hfk : inp.fromKeyState wk with
    | error e => exact Or.inl rfl
    | ok s =>
      simp only
      cases hg : inp.getSecret s.ns s.name with
      | error e => exact Or.inl rfl
      | ok s' =>
        simp only
        split_ifs with hc
        · cases ha : inp.applyErr (setResourceMigrated gr inp.nowStr s').2 with
          | some e => exact Or.inl rfl
          | none => exact Or.inl rfl
        · exact Or.inl rfl

theorem processGR_migrating (inp : SyncInputs) (gr : GroupResource) (keys : GRActualKeys) :
    (processGR inp gr keys).migrating = [] ∨ (processGR inp gr keys).migrating = [gr] := by
  cases hwk : keys.writeKey with
  | none => simp [processGR, hwk]
  | some wk =>
    cases hm : migratedFor [gr] wk with
    | true => simp [processGR, hwk, hm]
    | false =>
      simp only [processGR, hwk, hm, Bool.false_eq_true, if_false]
      split_ifs with hr
      · cases hp : inp.prune gr with
        | some pe => simp [hp]
        | none =>
          simp only [hp]
          exact handleEnsureResult_migrating inp gr wk _ _
      · exact handleEnsureResult_migrating inp gr wk _ _

theorem migrating_pairwise (inp : SyncInputs) (l : List (GroupResource × GRActualKeys))
    (h : l.Pairwise stateLe) :
    ((l.map fun p => (processGR inp p.1 p.2).migrating).flatten).Pairwise
      (fun a b => a.grKey ≤ b.grKey) := by
  induction l with
  | nil => simp
  | cons p rest ih =>
    simp only [List.map_cons, List.flatten_cons]
    rw [List.pairwise_append]
    refine ⟨?_, ih (List.pairwise_cons.mp h).2, ?_⟩
    · rcases processGR_migrating inp p.1 p.2 with hm | hm <;> rw [hm] <;> simp
    · intro a ha b hb
      rcases processGR_migrating inp p.1 p.2 with hm | hm
      · rw [hm] at ha
        cases ha
      · rw [hm] at ha
        have ha' : a = p.1 := by simpa using ha
        simp only [List.mem_flatten, List.mem_map] at hb
        obtain ⟨bl, ⟨q, hq, hbl⟩, hbmem⟩ := hb
        rcases processGR_migrating inp q.1 q.2 with hq2 | hq2
        · rw [← hbl, hq2] at hbmem
          cases hbmem
        · rw [← hbl, hq2] at hbmem
          have hb' : b = q.1 := by simpa using hbmem
          rw [ha', hb']
          exact (List.pairwise_cons.mp h).1 q hq

/-- C9 counterexample: on unsortedInputs the Progressing message lists
z/a before a/b, which is not ascending in the rendered group/resource
strings, refuting the claimed sort order: the actual key is the
GroupResource String() form (resource.group). -/
theorem c9_counterexample :
    (migrateKeysIfNeededAndRevisionStable unsortedInputs).migrating =
      [⟨"z", "a"⟩, ⟨"a", "b"⟩] ∧
    grsToHumanReadable (migrateKeysIfNeededAndRevisionStable unsortedInputs).migrating =
      ["z/a", "a/b"] ∧
    (sync unsortedInputs).statusUpdate = some (falseCond,
      ⟨true, "Migrating", "migrating resources to a new write key: [z/a a/b]"⟩) ∧
    ¬ strKey "z/a" ≤ strKey "a/b" := by
  decide

/-- C9 (amended): the GRs still migrating are reported sorted ascending
by their GroupResource String() form (the bare resource for the core
group, resource.group otherwise), and the Progressing message renders
each of them as group/resource with an empty group shown as core; the
message is deterministic in the migrating set. -/
theorem c9_progressing_sorted (inp : SyncInputs) (cfg : EncryptionConfig)
    (hready : inp.ready = true) (hpre : inp.preconditionErr = none)
    (hgcs : inp.getConfigAndStateErr = none)
    (hcfg : inp.currentEncryptionConfig = some cfg)
    (htrans : inp.isTransitionalReason = "")
    (hlist : inp.listSecretsErr = none)
    (heq : cfg.resources = inp.desiredEncryptedConfig.resources) :
    (migrateKeysIfNeededAndRevisionStable inp).migrating.Pairwise
      (fun a b => a.grKey ≤ b.grKey) ∧
    ((migrateKeysIfNeededAndRevisionStable inp).migrating ≠ [] →
      ∃ dc, (sync inp).statusUpdate = some (dc,
        ⟨true, "Migrating", "migrating resources to a new write key: " ++
          fmtStringList
            (grsToHumanReadable (migrateKeysIfNeededAndRevisionStable inp).migrating)⟩)) := by
  have hd := driver_loop inp cfg hgcs hcfg htrans hlist heq
  constructor
  · rw [hd]
    simp only [List.map_map]
    exact migrating_pairwise inp _ (List.sorted_insertionSort stateLe inp.currentState)
  · intro hne
    rw [sync_run inp hready hpre]
    simp only [ne_eq, hne, not_false_eq_true, if_true]
    exact ⟨_, rfl⟩

/-- Witness for C9 (amended) on unsortedInputs: the migrating list is
sorted by the String() key and the Progressing message renders it. -/
theorem c9_witness :
    (migrateKeysIfNeededAndRevisionStable unsortedInputs).migrating.Pairwise
      (fun a b => a.grKey ≤ b.grKey) ∧
    ∃ dc, (sync unsortedInputs).statusUpdate = some (dc,
      ⟨true, "Migrating", "migrating resources to a new write key: " ++
        fmtStringList
          (grsToHumanReadable (migrateKeysIfNeededAndRevisionStable unsortedInputs).migrating)⟩) :=
  ⟨(c9_progressing_sorted unsortedInputs ⟨[⟨["secrets"], ["aescbc-key"]⟩]⟩
      rfl rfl rfl rfl rfl rfl rfl).1,
   (c9_progressing_sorted unsortedInputs ⟨[⟨["secrets"], ["aescbc-key"]⟩]⟩
      rfl rfl rfl rfl rfl rfl rfl).2 (by decide)⟩

end Migration
